import Mathlib

/-!
Verification development for the anoncrypt Packer/Unpacker
(pkg/didcomm/packer/anoncrypt/pack.go) and the DID-exchange controller
command (controller/command/didexchange), as a shallow embedding.

The JWE cryptographic primitives (jose.NewJWEEncrypt, Encrypt,
Deserialize, NewJWEDecrypt, keyio export) and encoding/json live outside
the sampled sources, so they are modelled symbolically from the spec's
description of the wire envelope and key-agreement scheme; the control
flow of Pack/Unpack itself follows pack.go line by line.
-/

namespace Anoncrypt

/-- Modelled from the spec: a decoded recipient public key (curve point /
raw key bytes plus its key identifier), the result of json.Unmarshal into
composite.PublicKey. -/
structure PublicKey where
  kid : String
  keyVal : Nat
deriving DecidableEq, Repr

/-- Modelled from the spec: the opaque recipient key bytes supplied by the
caller; either a well-formed encoding of a public key or malformed junk. -/
inductive KeyBytes where
  | wellFormed (pk : PublicKey)
  | malformed (junk : Nat)
deriving DecidableEq, Repr

/-- Modelled from the spec: json.Unmarshal of one recipient key into a
composite.PublicKey; fails exactly on malformed input. -/
def decodeRecipientKey : KeyBytes → Option PublicKey
  | .wellFormed pk => some pk
  | .malformed _ => none

/-- unmarshalRecipientKeys from pack.go: decodes each key in order,
returning the first json.Unmarshal error. -/
def unmarshalRecipientKeys : List KeyBytes → Except String (List PublicKey)
  | [] => .ok []
  | k :: ks =>
    match decodeRecipientKey k with
    | none => .error "json unmarshal failed"
    | some pk =>
      match unmarshalRecipientKeys ks with
      | .error e => .error e
      | .ok rest => .ok (pk :: rest)

/-- Modelled from the spec: the content-encryption key wrapped for one
recipient by ephemeral ECDH key agreement (symbolic). -/
structure WrappedKey where
  cek : Nat
  pubVal : Nat
deriving DecidableEq, Repr

/-- Modelled from the spec: AEAD ciphertext produced with a
content-encryption key; `corrupted` models an authentication-tag
mismatch / corrupted ciphertext on the wire. -/
structure Ciphertext where
  cek : Nat
  payload : List Nat
  corrupted : Bool
deriving DecidableEq, Repr

/-- Modelled from the spec: public-key derivation from private key
material (symbolic). -/
def pubOfPriv (sk : Nat) : Nat := sk

/-- Modelled from the spec: wrapping the content-encryption key for a
recipient public key. -/
def wrap (cek : Nat) (pubVal : Nat) : WrappedKey := ⟨cek, pubVal⟩

/-- Modelled from the spec: a Tink keyset.Handle holding the recipient's
private key material. -/
structure KeysetHandle where
  priv : Nat
deriving DecidableEq, Repr

/-- Modelled from the spec: key-agreement unwrap of the content-encryption
key; succeeds exactly when the handle's private key matches the public key
the entry was wrapped for. -/
def unwrap (w : WrappedKey) (kh : KeysetHandle) : Option Nat :=
  if pubOfPriv kh.priv = w.pubVal then some w.cek else none

/-- Modelled from the spec: AEAD decryption; fails on a wrong
content-encryption key or on tag mismatch / corruption. -/
def aeadDecrypt (cek : Nat) (ct : Ciphertext) : Option (List Nat) :=
  if ct.corrupted = false ∧ cek = ct.cek then some ct.payload else none

/-- Per-recipient JWE headers (jose); only the KID field is used by
pack.go. -/
structure RecipientHeaders where
  KID : String
deriving DecidableEq, Repr

/-- One per-recipient entry of a JWE: headers plus the wrapped
content-encryption key. -/
structure Recipient where
  header : RecipientHeaders
  encryptedKey : WrappedKey
deriving DecidableEq, Repr

/-- Protected headers of a JWE; only the KID lookup is used by pack.go
(present for compact single-recipient serialization). -/
structure ProtectedHeaders where
  kid : Option String
deriving DecidableEq, Repr

/-- jose.JSONWebEncryption: the parsed JWE message. -/
structure JSONWebEncryption where
  protectedHeaders : ProtectedHeaders
  recipients : List Recipient
  iv : Nat
  ciphertext : Ciphertext
  tag : Nat
deriving DecidableEq, Repr

/-- Modelled from the spec: the serialized envelope bytes — either the
dot-segmented compact string (header.encryptedKey.iv.ciphertext.tag), the
full structured object with a recipients list, or bytes that are no JWE
at all. -/
inductive SerializedEnvelope where
  | compact (protectedHeaders : ProtectedHeaders) (encryptedKey : WrappedKey)
      (iv : Nat) (ciphertext : Ciphertext) (tag : Nat)
  | full (protectedHeaders : ProtectedHeaders) (recipients : List Recipient)
      (iv : Nat) (ciphertext : Ciphertext) (tag : Nat)
  | garbage (n : Nat)
deriving DecidableEq, Repr

/-- jwe.CompactSerialize: requires exactly one recipient and drops the
per-recipient header (the KID lives in the protected headers). -/
def CompactSerialize (jwe : JSONWebEncryption) : Except String SerializedEnvelope :=
  match jwe.recipients with
  | [r] => .ok (.compact jwe.protectedHeaders r.encryptedKey jwe.iv jwe.ciphertext jwe.tag)
  | _ => .error "compact serialization supports only a single recipient"

/-- jwe.FullSerialize: the structured object listing every recipient. -/
def FullSerialize (jwe : JSONWebEncryption) : SerializedEnvelope :=
  .full jwe.protectedHeaders jwe.recipients jwe.iv jwe.ciphertext jwe.tag

/-- jose.Deserialize: detects compact vs full form structurally; a compact
string yields a single recipient entry whose headers are empty (its KID is
in the protected headers). -/
def Deserialize : SerializedEnvelope → Except String JSONWebEncryption
  | .compact ph ek iv ct tag => .ok ⟨ph, [⟨⟨""⟩, ek⟩], iv, ct, tag⟩
  | .full ph recips iv ct tag => .ok ⟨ph, recips, iv, ct, tag⟩
  | .garbage _ => .error "invalid compact JWE"

/-- Modelled from the spec: jose.JWEEncrypt bound to the full recipient
set. -/
structure JWEEncrypt where
  recipients : List PublicKey
deriving DecidableEq, Repr

/-- Modelled from the spec: jose.NewJWEEncrypt; fails on an empty
recipient set. -/
def NewJWEEncrypt (recipients : List PublicKey) : Except String JWEEncrypt :=
  if recipients.isEmpty then .error "empty recipients" else .ok ⟨recipients⟩

/-- Modelled from the spec: encrypt the payload once under a fresh
content-encryption key `cek`, wrap that key once per recipient; for a
single recipient the recipient's KID is merged into the protected
headers. The random cek and iv are explicit arguments. -/
def JWEEncrypt.Encrypt (e : JWEEncrypt) (cek iv : Nat) (payload : List Nat) :
    JSONWebEncryption :=
  { protectedHeaders := ⟨match e.recipients with | [pk] => some pk.kid | _ => none⟩
    recipients := e.recipients.map (fun pk => ⟨⟨pk.kid⟩, wrap cek pk.keyVal⟩)
    iv := iv
    ciphertext := ⟨cek, payload, false⟩
    tag := 0 }

/-- Modelled from the spec: the content-encryption-key search performed by
jose.JWEDecrypt — the first recipient entry the handle can unwrap. -/
def findCEK (kh : KeysetHandle) : List Recipient → Option Nat
  | [] => none
  | r :: rs =>
    match unwrap r.encryptedKey kh with
    | some cek => some cek
    | none => findCEK kh rs

/-- Modelled from the spec: jose.NewJWEDecrypt(kh).Decrypt(jwe) — unwrap
the content-encryption key via key agreement, then AEAD-decrypt the
ciphertext. -/
def JWEDecrypt.Decrypt (kh : KeysetHandle) (jwe : JSONWebEncryption) :
    Except String (List Nat) :=
  match findCEK kh jwe.recipients with
  | none => .error "failed to unwrap cek"
  | some cek =>
    match aeadDecrypt cek jwe.ciphertext with
    | none => .error "AEAD decryption failure"
    | some pt => .ok pt

/-- exportPubKeyBytes from pack.go: keyio serialization of the handle's
public key (Modelled from the spec for the keyio writer itself). -/
def exportPubKeyBytes (kh : KeysetHandle) : List Nat := [pubOfPriv kh.priv]

/-- The byte serialization of a recipient public key, for stating which
key `ToVerKey` carries. -/
def pubKeyBytes (pk : PublicKey) : List Nat := [pk.keyVal]

/-- A handle returned by the Key Manager: either a Tink keyset.Handle or a
value of some other underlying type (the failed type assertion case). -/
inductive KMSHandle where
  | keyset (kh : KeysetHandle)
  | other (n : Nat)
deriving DecidableEq, Repr

/-- Result of kms.Get: a handle, or an error carrying its message
string. -/
inductive GetResult where
  | ok (h : KMSHandle)
  | err (msg : String)
deriving DecidableEq, Repr

/-- The Key Manager collaborator: lookup of a handle by key identifier. -/
def KMS := String → GetResult

/-- The anoncrypt Packer: kms plus the chosen encryption algorithm. -/
structure Packer where
  kms : KMS
  encAlg : String

/-- Errors of Packer.Pack, one constructor per fmt.Errorf site. -/
inductive PackError where
  | emptyRecipientsPubKeys
  | keyDecodeFailed (msg : String)
  | newJWEEncryptFailed (msg : String)
  | serializeFailed (msg : String)
deriving DecidableEq, Repr

/-- Errors of Packer.Unpack, one constructor per fmt.Errorf site. -/
inductive UnpackError where
  | deserializeFailed (msg : String)
  | getKIDFailed
  | kmsGetFailed (msg : String)
  | invalidKeysetHandle
  | decryptFailed (msg : String)
  | noMatchingRecipient
deriving DecidableEq, Repr

/-- transport.Envelope: the Unpack result. -/
structure TransportEnvelope where
  Message : List Nat
  ToVerKey : List Nat
deriving DecidableEq, Repr

/-- Packer.Pack from pack.go: reject an empty recipient list, decode all
recipient keys, build the JWE encrypter, encrypt, then serialize compact
for one recipient and full otherwise. `cek` and `iv` are the explicit
randomness of the encrypter; the second byte argument is the ignored
sender. -/
def Packer.Pack (_p : Packer) (cek iv : Nat) (payload _sender : List Nat)
    (recipientsPubKeys : List KeyBytes) : Except PackError SerializedEnvelope :=
  if recipientsPubKeys.length = 0 then .error .emptyRecipientsPubKeys
  else
    match unmarshalRecipientKeys recipientsPubKeys with
    | .error e => .error (.keyDecodeFailed e)
    | .ok recECKeys =>
      match NewJWEEncrypt recECKeys with
      | .error e => .error (.newJWEEncryptFailed e)
      | .ok enc =>
        let jwe := enc.Encrypt cek iv payload
        if recipientsPubKeys.length = 1 then
          match CompactSerialize jwe with
          | .error e => .error (.serializeFailed e)
          | .ok s => .ok s
        else .ok (FullSerialize jwe)

/-- getKID from pack.go: for the compact single-recipient case the KID is
read from the protected headers, otherwise from the recipient's own
header. -/
def getKID (i : Nat) (jwe : JSONWebEncryption) : Except String String :=
  if i = 0 ∧ jwe.recipients.length = 1 then
    match jwe.protectedHeaders.kid with
    | some kid => .ok kid
    | none => .error "single recipient missing KID in jwe.ProtectHeaders"
  else
    match jwe.recipients.get? i with
    | some r => .ok r.header.KID
    | none => .error "recipient index out of range"

/-- storage.ErrDataNotFound's message (Modelled from the spec: the
data-not-found sentinel of the storage package). -/
def ErrDataNotFound : String := "data not found"

/-- The exact message pack.go compares a kms.Get error against to decide
"key not found, try the next recipient". -/
def notFoundMsg (kid : String) : String :=
  "cannot read data for keysetID " ++ kid ++ ": " ++ ErrDataNotFound

/-- Simple case folding of one character (ASCII upper to lower), for
modelling strings.EqualFold. -/
def foldChar (c : Char) : Char :=
  if 'A' ≤ c ∧ c ≤ 'Z' then Char.ofNat (c.toNat + 32) else c

/-- strings.EqualFold (Modelled from the spec: case-insensitive string
equality under simple case folding). -/
def EqualFold (a b : String) : Bool := a.data.map foldChar == b.data.map foldChar

/-- The recipient loop of Packer.Unpack over the remaining recipient
indices, exactly as in pack.go: not-found kms errors skip to the next
index, every other outcome returns immediately. -/
def unpackLoop (p : Packer) (jwe : JSONWebEncryption) :
    List Nat → Except UnpackError TransportEnvelope
  | [] => .error .noMatchingRecipient
  | i :: rest =>
    match getKID i jwe with
    | .error _ => .error .getKIDFailed
    | .ok kid =>
      match p.kms kid with
      | .err msg =>
        if EqualFold msg (notFoundMsg kid) then unpackLoop p jwe rest
        else .error (.kmsGetFailed msg)
      | .ok h =>
        match h with
        | .other _ => .error .invalidKeysetHandle
        | .keyset kh =>
          match JWEDecrypt.Decrypt kh jwe with
          | .error e => .error (.decryptFailed e)
          | .ok pt => .ok ⟨pt, exportPubKeyBytes kh⟩

/-- Packer.Unpack from pack.go: deserialize the envelope, then iterate the
recipients in wire order. -/
def Packer.Unpack (p : Packer) (envelope : SerializedEnvelope) :
    Except UnpackError TransportEnvelope :=
  match Deserialize envelope with
  | .error e => .error (.deserializeFailed e)
  | .ok jwe => unpackLoop p jwe (List.range jwe.recipients.length)

/-- EncodingType from pack.go. -/
def encodingType : String := "didcomm-envelope-enc"

/-- Packer.EncodingType from pack.go. -/
def Packer.EncodingType (_p : Packer) : String := encodingType

end Anoncrypt

namespace DIDExchangeCtrl

/-! Shallow embedding of the DID-exchange controller command
(controller/command/didexchange). The underlying didexchange.Client is an
injected collaborator, modelled as a record of functions; JSON request
decoding is modelled as an already-completed `Except` value. -/

/-- errEmptyConnID from the controller source. -/
def errEmptyConnID : String := "empty connection ID"

/-- errEmptyInviterDID from the controller source. -/
def errEmptyInviterDID : String := "empty inviter DID"

/-- Modelled from the spec: the command.DIDExchange base of this
controller's error-code block; the iota offsets below follow the
controller source. -/
def DIDExchangeCode : Nat := 100

/-- InvalidRequestErrorCode from the controller source. -/
def InvalidRequestErrorCode : Nat := DIDExchangeCode
/-- CreateInvitationErrorCode from the controller source. -/
def CreateInvitationErrorCode : Nat := DIDExchangeCode + 1
/-- CreateImplicitInvitationErrorCode from the controller source. -/
def CreateImplicitInvitationErrorCode : Nat := DIDExchangeCode + 2
/-- ReceiveInvitationErrorCode from the controller source. -/
def ReceiveInvitationErrorCode : Nat := DIDExchangeCode + 3
/-- AcceptInvitationErrorCode from the controller source. -/
def AcceptInvitationErrorCode : Nat := DIDExchangeCode + 4
/-- AcceptExchangeRequestErrorCode from the controller source. -/
def AcceptExchangeRequestErrorCode : Nat := DIDExchangeCode + 5
/-- QueryConnectionsErrorCode from the controller source. -/
def QueryConnectionsErrorCode : Nat := DIDExchangeCode + 6
/-- RemoveConnectionErrorCode from the controller source. -/
def RemoveConnectionErrorCode : Nat := DIDExchangeCode + 7

/-- command.Error: validation errors (command.NewValidationError) versus
execution errors (command.NewExecuteError). -/
inductive CommandError where
  | validationError (code : Nat) (msg : String)
  | executeError (code : Nat) (msg : String)
deriving DecidableEq, Repr

/-- A stored connection record as returned by client.GetConnection. -/
structure Connection where
  ConnectionID : String
deriving DecidableEq, Repr

/-- didexchange.DIDInfo. -/
structure DIDInfo where
  DID : String
  Label : String
deriving DecidableEq, Repr

/-- Modelled from the spec: the injected didexchange.Client collaborator,
one function per method the controller invokes. -/
structure Client where
  acceptInvitation : String → String → String → Except String Unit
  acceptExchangeRequest : String → String → String → Except String Unit
  getConnection : String → Except String Connection
  removeConnection : String → Except String Unit
  createImplicitInvitation : String → String → Except String String
  createImplicitInvitationWithDID : DIDInfo → DIDInfo → Except String String

/-- The DID Exchange controller command instance. -/
structure Command where
  client : Client
  defaultLabel : String

/-- AcceptInvitationArgs. -/
structure AcceptInvitationArgs where
  ID : String
  Public : String
deriving DecidableEq, Repr

/-- AcceptExchangeRequestArgs. -/
structure AcceptExchangeRequestArgs where
  ID : String
  Public : String
deriving DecidableEq, Repr

/-- ConnectionIDArg. -/
structure ConnectionIDArg where
  ID : String
deriving DecidableEq, Repr

/-- ImplicitInvitationArgs. -/
structure ImplicitInvitationArgs where
  InviterDID : String
  InviterLabel : String
  InviteeDID : String
  InviteeLabel : String
deriving DecidableEq, Repr

/-- AcceptInvitationResponse. -/
structure AcceptInvitationResponse where
  ConnectionID : String
deriving DecidableEq, Repr

/-- ExchangeResponse. -/
structure ExchangeResponse where
  ConnectionID : String
deriving DecidableEq, Repr

/-- QueryConnectionResponse. -/
structure QueryConnectionResponse where
  Result : Connection
deriving DecidableEq, Repr

/-- ImplicitInvitationResponse. -/
structure ImplicitInvitationResponse where
  ConnectionID : String
deriving DecidableEq, Repr

/-- Command.AcceptInvitation: decode failure or empty connection ID yield
a validation error before the client is invoked. -/
def Command.AcceptInvitation (c : Command) (req : Except String AcceptInvitationArgs) :
    Except CommandError AcceptInvitationResponse :=
  match req with
  | .error e => .error (.validationError InvalidRequestErrorCode e)
  | .ok request =>
    if request.ID = "" then
      .error (.validationError InvalidRequestErrorCode errEmptyConnID)
    else
      match c.client.acceptInvitation request.ID request.Public c.defaultLabel with
      | .error e => .error (.executeError AcceptInvitationErrorCode e)
      | .ok _ => .ok ⟨request.ID⟩

/-- Command.AcceptExchangeRequest. -/
def Command.AcceptExchangeRequest (c : Command)
    (req : Except String AcceptExchangeRequestArgs) :
    Except CommandError ExchangeResponse :=
  match req with
  | .error e => .error (.validationError InvalidRequestErrorCode e)
  | .ok request =>
    if request.ID = "" then
      .error (.validationError InvalidRequestErrorCode errEmptyConnID)
    else
      match c.client.acceptExchangeRequest request.ID request.Public c.defaultLabel with
      | .error e => .error (.executeError AcceptExchangeRequestErrorCode e)
      | .ok _ => .ok ⟨request.ID⟩

/-- Command.QueryConnectionByID. -/
def Command.QueryConnectionByID (c : Command) (req : Except String ConnectionIDArg) :
    Except CommandError QueryConnectionResponse :=
  match req with
  | .error e => .error (.validationError InvalidRequestErrorCode e)
  | .ok request =>
    if request.ID = "" then
      .error (.validationError InvalidRequestErrorCode errEmptyConnID)
    else
      match c.client.getConnection request.ID with
      | .error e => .error (.executeError QueryConnectionsErrorCode e)
      | .ok result => .ok ⟨result⟩

/-- Command.RemoveConnection. -/
def Command.RemoveConnection (c : Command) (req : Except String ConnectionIDArg) :
    Except CommandError Unit :=
  match req with
  | .error e => .error (.validationError InvalidRequestErrorCode e)
  | .ok request =>
    if request.ID = "" then
      .error (.validationError InvalidRequestErrorCode errEmptyConnID)
    else
      match c.client.removeConnection request.ID with
      | .error e => .error (.executeError RemoveConnectionErrorCode e)
      | .ok _ => .ok ()

/-- Command.CreateImplicitInvitation: empty inviter DID yields a
validation error; otherwise the invitee DID selects which client call is
made. -/
def Command.CreateImplicitInvitation (c : Command)
    (req : Except String ImplicitInvitationArgs) :
    Except CommandError ImplicitInvitationResponse :=
  match req with
  | .error e => .error (.validationError InvalidRequestErrorCode e)
  | .ok request =>
    if request.InviterDID = "" then
      .error (.validationError InvalidRequestErrorCode errEmptyInviterDID)
    else
      let inviter : DIDInfo := ⟨request.InviterDID, request.InviterLabel⟩
      let r :=
        if request.InviteeDID ≠ "" then
          c.client.createImplicitInvitationWithDID inviter
            ⟨request.InviteeDID, request.InviteeLabel⟩
        else
          c.client.createImplicitInvitation inviter.Label inviter.DID
      match r with
      | .error e => .error (.executeError CreateImplicitInvitationErrorCode e)
      | .ok id => .ok ⟨id⟩

/-! The broadcasting task of the controller's New function: for each
inbound Action event it walks the subscriber list in order, replaces the
event's message by a Clone of the current message, and delivers the
resulting reference to the subscriber. Messages live in a heap of
references so that cloning (fresh reference, copied contents) and a
subscriber's in-place mutation are both expressible. -/

/-- The heap of DIDComm message payloads: a reference is an index, its
contents the payload. -/
abbrev Heap := List (List Nat)

/-- Read the payload a reference points to. -/
def Heap.read (h : Heap) (r : Nat) : List Nat := List.getD h r []

/-- Allocate a fresh reference holding the given payload. -/
def Heap.alloc (h : Heap) (v : List Nat) : Heap × Nat := (h ++ [v], h.length)

/-- In-place mutation of the payload behind a reference (what a subscriber
may do to its delivered copy). -/
def Heap.write (h : Heap) (r : Nat) (v : List Nat) : Heap := List.set h r v

/-- DIDCommMsg.Clone: a fresh reference with the same contents. -/
def Clone (h : Heap) (r : Nat) : Heap × Nat := h.alloc (h.read r)

/-- The two kinds of Action-event subscribers wired up by New. -/
inductive Subscriber where
  | application
  | autoAcceptResp
deriving DecidableEq, Repr

/-- The subscriber list built by New: the application subscriber first,
the Auto-Accept subscriber appended only when autoAccept is enabled. -/
def mkSubscribers (autoAccept : Bool) : List Subscriber :=
  [Subscriber.application] ++ (if autoAccept then [Subscriber.autoAcceptResp] else [])

/-- The inner loop of the broadcasting goroutine for one Action event:
`action.Message = action.Message.Clone(); subscribers[i] <- action` for
each subscriber in order. Returns the final heap and the references
delivered, in subscriber-list order. -/
def broadcastLoop (h : Heap) (cur : Nat) : Nat → Heap × List Nat
  | 0 => (h, [])
  | Nat.succ n =>
    let p := Clone h cur
    let q := broadcastLoop p.1 p.2 n
    (q.1, p.2 :: q.2)

/-- One iteration of the broadcasting task: deliver one Action event's
message to every subscriber. -/
def broadcastOne (h : Heap) (msgRef : Nat) (autoAccept : Bool) : Heap × List Nat :=
  broadcastLoop h msgRef (mkSubscribers autoAccept).length

theorem Heap.read_write_ne (h : Heap) (r r' : Nat) (v : List Nat) (hne : r ≠ r') :
    (h.write r v).read r' = h.read r' := by
  show List.getD (List.set h r v) r' [] = List.getD h r' []
  rw [List.getD_eq_getElem?_getD, List.getD_eq_getElem?_getD,
    List.getElem?_set_ne hne]

theorem Heap.read_alloc_self (h : Heap) (v : List Nat) :
    ((h.alloc v).1).read h.length = v := by
  show List.getD (h ++ [v]) h.length [] = v
  rw [List.getD_eq_getElem?_getD, List.getElem?_concat_length]
  rfl

theorem Heap.read_alloc_lt (h : Heap) (v : List Nat) (r : Nat)
    (hr : r < h.length) :
    ((h.alloc v).1).read r = h.read r := by
  show List.getD (h ++ [v]) r [] = List.getD h r []
  rw [List.getD_eq_getElem?_getD, List.getD_eq_getElem?_getD,
    List.getElem?_append]
  simp [hr]

theorem broadcastLoop_spec : ∀ (n : Nat) (h : Heap) (cur : Nat),
    (broadcastLoop h cur n).2 = List.range' h.length n ∧
    (∀ r ∈ (broadcastLoop h cur n).2,
      (broadcastLoop h cur n).1.read r = h.read cur) ∧
    (∀ r, r < h.length → (broadcastLoop h cur n).1.read r = h.read r) := by
  intro n
  induction n with
  | zero => intro h cur; simp [broadcastLoop]
  | succ n ih =>
    intro h cur
    have hL1 : (Clone h cur).1.length = h.length + 1 := by
      show (h ++ [h.read cur]).length = h.length + 1
      simp
    rcases ih (Clone h cur).1 (Clone h cur).2 with ⟨ihrefs, ihread, ihold⟩
    have hself : (Clone h cur).1.read (Clone h cur).2 = h.read cur :=
      Heap.read_alloc_self h (h.read cur)
    refine ⟨?_, ?_, ?_⟩
    · show (Clone h cur).2 :: (broadcastLoop (Clone h cur).1 (Clone h cur).2 n).2 = _
      rw [ihrefs, hL1]
      rfl
    · intro r hr
      rcases List.mem_cons.mp hr with hr0 | hrrest
      · subst hr0
        show (broadcastLoop (Clone h cur).1 (Clone h cur).2 n).1.read _ = _
        rw [ihold (Clone h cur).2 (by rw [hL1]; show h.length < _; omega)]
        exact hself
      · show (broadcastLoop (Clone h cur).1 (Clone h cur).2 n).1.read r = _
        rw [ihread r hrrest]
        exact hself
    · intro r hrlt
      show (broadcastLoop (Clone h cur).1 (Clone h cur).2 n).1.read r = _
      rw [ihold r (by omega)]
      exact Heap.read_alloc_lt h (h.read cur) r hrlt

end DIDExchangeCtrl

namespace Anoncrypt

theorem EqualFold_self (s : String) : EqualFold s s = true := by
  simp [EqualFold]

theorem unmarshal_map_wellFormed (keys : List PublicKey) :
    unmarshalRecipientKeys (keys.map KeyBytes.wellFormed) = .ok keys := by
  induction keys with
  | nil => rfl
  | cons k ks ih => simp [unmarshalRecipientKeys, decodeRecipientKey, ih]

theorem unmarshal_error_of_malformed (ks : List KeyBytes)
    (h : ∃ k ∈ ks, decodeRecipientKey k = none) :
    ∃ e, unmarshalRecipientKeys ks = .error e := by
  induction ks with
  | nil => simp at h
  | cons k ks ih =>
    rcases h with ⟨k', hk', hdec⟩
    rcases List.mem_cons.mp hk' with hk'' | hk''
    · subst hk''
      exact ⟨"json unmarshal failed", by simp [unmarshalRecipientKeys, hdec]⟩
    · cases hcase : decodeRecipientKey k with
      | none => exact ⟨"json unmarshal failed", by simp [unmarshalRecipientKeys, hcase]⟩
      | some pk =>
        rcases ih ⟨k', hk'', hdec⟩ with ⟨e, he⟩
        exact ⟨e, by simp [unmarshalRecipientKeys, hcase, he]⟩

theorem findCEK_eq (kh : KeysetHandle) (c : Nat) (rs : List Recipient)
    (hall : ∀ r ∈ rs, r.encryptedKey.cek = c)
    (hex : ∃ r ∈ rs, pubOfPriv kh.priv = r.encryptedKey.pubVal) :
    findCEK kh rs = some c := by
  induction rs with
  | nil => simp at hex
  | cons r rs ih =>
    by_cases hr : pubOfPriv kh.priv = r.encryptedKey.pubVal
    · have := hall r (by simp)
      simp [findCEK, unwrap, hr, this]
    · rcases hex with ⟨r', hr', hpv⟩
      rcases List.mem_cons.mp hr' with hr'' | hr''
      · subst hr''; exact absurd hpv hr
      · have := ih (fun x hx => hall x (by simp [hx])) ⟨r', hr'', hpv⟩
        simp [findCEK, unwrap, hr, this]

theorem unpackLoop_skip_front (p : Packer) (jwe : JSONWebEncryption)
    (is₁ is₂ : List Nat)
    (h : ∀ i ∈ is₁, ∃ kid msg, getKID i jwe = .ok kid ∧
      p.kms kid = .err msg ∧ EqualFold msg (notFoundMsg kid) = true) :
    unpackLoop p jwe (is₁ ++ is₂) = unpackLoop p jwe is₂ := by
  induction is₁ with
  | nil => rfl
  | cons i is ih =>
    rcases h i (by simp) with ⟨kid, msg, hkid, hkms, hfold⟩
    have hrest := ih (fun x hx => h x (by simp [hx]))
    simp [unpackLoop, hkid, hkms, hfold, hrest]

theorem unpackLoop_no_deserialize (p : Packer) (jwe : JSONWebEncryption) :
    ∀ is e, unpackLoop p jwe is ≠ .error (.deserializeFailed e) := by
  intro is
  induction is with
  | nil => intro e h; simp [unpackLoop] at h
  | cons i rest ih =>
    intro e h
    simp only [unpackLoop] at h
    repeat' split at h
    all_goals first
      | exact ih e h
      | simp at h

theorem Pack_single (p : Packer) (cek iv : Nat) (payload sender : List Nat)
    (pk : PublicKey) :
    p.Pack cek iv payload sender [KeyBytes.wellFormed pk] =
      .ok (.compact ⟨some pk.kid⟩ (wrap cek pk.keyVal) iv ⟨cek, payload, false⟩ 0) := rfl

theorem Pack_multi (p : Packer) (cek iv : Nat) (payload sender : List Nat)
    (a b : PublicKey) (t : List PublicKey) :
    p.Pack cek iv payload sender ((a :: b :: t).map KeyBytes.wellFormed) =
      .ok (.full ⟨none⟩ ((a :: b :: t).map fun pk => ⟨⟨pk.kid⟩, wrap cek pk.keyVal⟩)
        iv ⟨cek, payload, false⟩ 0) := by
  unfold Packer.Pack
  rw [unmarshal_map_wellFormed]
  simp [NewJWEEncrypt, JWEEncrypt.Encrypt, FullSerialize, List.length_map]

end Anoncrypt

open Anoncrypt DIDExchangeCtrl

/-- C7: caller misuse fails with a validation error before any work is
done: Pack with an empty recipient list fails; AcceptInvitation,
AcceptExchangeRequest, QueryConnectionByID and RemoveConnection with an
empty connection ID, and CreateImplicitInvitation with an empty inviter
DID, each fail with a validation error without invoking the underlying
client (the conclusion holds for every client, so the client is never
consulted). -/
theorem claim_C7_invalid_input :
    (∀ (p : Packer) (cek iv : Nat) (payload sender : List Nat),
      p.Pack cek iv payload sender [] = .error .emptyRecipientsPubKeys) ∧
    (∀ (c : Command) (pub : String),
      c.AcceptInvitation (.ok ⟨"", pub⟩) =
        .error (.validationError InvalidRequestErrorCode errEmptyConnID)) ∧
    (∀ (c : Command) (pub : String),
      c.AcceptExchangeRequest (.ok ⟨"", pub⟩) =
        .error (.validationError InvalidRequestErrorCode errEmptyConnID)) ∧
    (∀ c : Command,
      c.QueryConnectionByID (.ok ⟨""⟩) =
        .error (.validationError InvalidRequestErrorCode errEmptyConnID)) ∧
    (∀ c : Command,
      c.RemoveConnection (.ok ⟨""⟩) =
        .error (.validationError InvalidRequestErrorCode errEmptyConnID)) ∧
    (∀ (c : Command) (ivL ieD ieL : String),
      c.CreateImplicitInvitation (.ok ⟨"", ivL, ieD, ieL⟩) =
        .error (.validationError InvalidRequestErrorCode errEmptyInviterDID)) :=
  ⟨fun _ _ _ _ _ => rfl, fun _ _ => rfl, fun _ _ => rfl, fun _ => rfl, fun _ => rfl,
    fun _ _ _ _ => rfl⟩

/-- C8: Pack decodes every recipient key before building the encrypter;
whenever any recipient key in the list is malformed it fails with the
key-decode error and produces no envelope at all. -/
theorem claim_C8_key_decode_fail_fast (p : Packer) (cek iv : Nat)
    (payload sender : List Nat) (keys : List KeyBytes)
    (h : ∃ k ∈ keys, decodeRecipientKey k = none) :
    ∃ e, p.Pack cek iv payload sender keys = .error (.keyDecodeFailed e) := by
  rcases unmarshal_error_of_malformed keys h with ⟨e, he⟩
  have hne : keys.length ≠ 0 := by
    rcases h with ⟨k, hk, _⟩
    cases keys with
    | nil => simp at hk
    | cons a t => simp
  exact ⟨e, by simp [Packer.Pack, hne, he]⟩

/-- Witness for C8 at a concrete list holding one well-formed and one
malformed key. -/
theorem claim_C8_key_decode_fail_fast_witness :
    ∃ e, (Packer.mk (fun _ => .err "boom") "ECDH-ES").Pack 3 4 [9, 9] []
      [KeyBytes.wellFormed ⟨"A", 1⟩, KeyBytes.malformed 7] =
      .error (.keyDecodeFailed e) :=
  claim_C8_key_decode_fail_fast _ 3 4 [9, 9] []
    [KeyBytes.wellFormed ⟨"A", 1⟩, KeyBytes.malformed 7]
    ⟨KeyBytes.malformed 7, by decide, rfl⟩

/-- C2: Pack with exactly one recipient serializes the envelope in
compact (dot-segmented) form; with two or more recipients it serializes
the full form with one recipients entry per recipient; Unpack never
rejects either form at the deserialization step. -/
theorem claim_C2_format_selection :
    (∀ (p : Packer) (cek iv : Nat) (payload sender : List Nat) (pk : PublicKey),
      p.Pack cek iv payload sender [KeyBytes.wellFormed pk] =
        .ok (.compact ⟨some pk.kid⟩ (wrap cek pk.keyVal) iv ⟨cek, payload, false⟩ 0)) ∧
    (∀ (p : Packer) (cek iv : Nat) (payload sender : List Nat)
        (a b : PublicKey) (t : List PublicKey),
      ∃ recips, p.Pack cek iv payload sender ((a :: b :: t).map KeyBytes.wellFormed) =
        .ok (.full ⟨none⟩ recips iv ⟨cek, payload, false⟩ 0) ∧
        recips.length = (a :: b :: t).length) ∧
    (∀ (p : Packer) (ph : ProtectedHeaders) (ek : WrappedKey) (iv : Nat)
        (ct : Ciphertext) (tag : Nat) (e : String),
      p.Unpack (.compact ph ek iv ct tag) ≠ .error (.deserializeFailed e)) ∧
    (∀ (p : Packer) (ph : ProtectedHeaders) (recips : List Recipient) (iv : Nat)
        (ct : Ciphertext) (tag : Nat) (e : String),
      p.Unpack (.full ph recips iv ct tag) ≠ .error (.deserializeFailed e)) := by
  refine ⟨fun p cek iv payload sender pk => Pack_single p cek iv payload sender pk,
    fun p cek iv payload sender a b t => ⟨_, Pack_multi p cek iv payload sender a b t,
      by simp⟩, ?_, ?_⟩
  · intro p ph ek iv ct tag e
    exact unpackLoop_no_deserialize p _ _ e
  · intro p ph recips iv ct tag e
    exact unpackLoop_no_deserialize p _ _ e

/-- C5: when the iteration over the envelope's recipients exhausts with no
recipient key found in the Key Manager, Unpack fails with the
no-matching-recipient error and returns no plaintext, for the full form
and for the compact form alike. -/
theorem claim_C5_no_matching_recipient :
    (∀ (p : Packer) (ph : ProtectedHeaders) (recips : List Recipient) (iv : Nat)
        (ct : Ciphertext) (tag : Nat),
      2 ≤ recips.length →
      (∀ r ∈ recips, p.kms r.header.KID = .err (notFoundMsg r.header.KID)) →
      p.Unpack (.full ph recips iv ct tag) = .error .noMatchingRecipient) ∧
    (∀ (p : Packer) (k : String) (ek : WrappedKey) (iv : Nat) (ct : Ciphertext)
        (tag : Nat),
      p.kms k = .err (notFoundMsg k) →
      p.Unpack (.compact ⟨some k⟩ ek iv ct tag) = .error .noMatchingRecipient) := by
  constructor
  · intro p ph recips iv ct tag h2 hall
    have hskip : ∀ i ∈ List.range recips.length,
        ∃ kid msg, getKID i ⟨ph, recips, iv, ct, tag⟩ = .ok kid ∧
          p.kms kid = .err msg ∧ EqualFold msg (notFoundMsg kid) = true := by
      intro i hi
      have hilt : i < recips.length := List.mem_range.mp hi
      have hget : recips[i]? = some recips[i] := List.getElem?_eq_getElem hilt
      have hcond : ¬(i = 0 ∧ recips.length = 1) := by
        rintro ⟨-, h1⟩; omega
      refine ⟨recips[i].header.KID, _, ?_, hall _ (List.getElem_mem hilt),
        EqualFold_self _⟩
      simp [getKID, hcond, hget]
    have := unpackLoop_skip_front p ⟨ph, recips, iv, ct, tag⟩
      (List.range recips.length) [] hskip
    simpa [Packer.Unpack, Deserialize, unpackLoop] using this
  · intro p k ek iv ct tag hk
    simp [Packer.Unpack, Deserialize, List.range_succ, unpackLoop, getKID, hk,
      EqualFold_self]

/-- Witness for C5 at a two-recipient full envelope and a one-recipient
compact envelope, with a Key Manager that finds no key. -/
theorem claim_C5_no_matching_recipient_witness :
    (Packer.mk (fun kid => .err (notFoundMsg kid)) "ECDH-ES").Unpack
      (.full ⟨none⟩ [⟨⟨"A"⟩, wrap 3 1⟩, ⟨⟨"B"⟩, wrap 3 2⟩] 5 ⟨3, [9], false⟩ 0) =
      .error .noMatchingRecipient ∧
    (Packer.mk (fun kid => .err (notFoundMsg kid)) "ECDH-ES").Unpack
      (.compact ⟨some "A"⟩ (wrap 3 1) 5 ⟨3, [9], false⟩ 0) =
      .error .noMatchingRecipient :=
  ⟨claim_C5_no_matching_recipient.1 _ ⟨none⟩ [⟨⟨"A"⟩, wrap 3 1⟩, ⟨⟨"B"⟩, wrap 3 2⟩]
      5 ⟨3, [9], false⟩ 0 (by decide) (by intro r hr; fin_cases hr <;> rfl),
    claim_C5_no_matching_recipient.2 _ "A" (wrap 3 1) 5 ⟨3, [9], false⟩ 0 rfl⟩

/-- C6: a Key Manager lookup that succeeds but returns a handle of the
wrong underlying type makes Unpack fail immediately with the invalid
keyset handle error; it is not treated as a missing key and no later
recipient is attempted (the conclusion holds for every behaviour of the
Key Manager on the remaining recipients). -/
theorem claim_C6_invalid_handle_fatal :
    (∀ (p : Packer) (ph : ProtectedHeaders) (e0 e1 : Recipient)
        (rest : List Recipient) (iv : Nat) (ct : Ciphertext) (tag n : Nat),
      p.kms e0.header.KID = .ok (.other n) →
      p.Unpack (.full ph (e0 :: e1 :: rest) iv ct tag) =
        .error .invalidKeysetHandle) ∧
    (∀ (p : Packer) (k : String) (ek : WrappedKey) (iv : Nat) (ct : Ciphertext)
        (tag n : Nat),
      p.kms k = .ok (.other n) →
      p.Unpack (.compact ⟨some k⟩ ek iv ct tag) = .error .invalidKeysetHandle) := by
  constructor
  · intro p ph e0 e1 rest iv ct tag n hkms
    simp only [Packer.Unpack, Deserialize]
    rw [show (e0 :: e1 :: rest).length = (rest.length + 1) + 1 from rfl,
      List.range_succ_eq_map]
    simp [unpackLoop, getKID, hkms]
  · intro p k ek iv ct tag n hk
    simp [Packer.Unpack, Deserialize, List.range_succ, unpackLoop, getKID, hk]

/-- Witness for C6: the lookup for the first recipient returns a handle of
the wrong type while the second recipient's valid key is also present;
Unpack still fails with the invalid keyset handle error. -/
theorem claim_C6_invalid_handle_fatal_witness :
    (Packer.mk (fun kid => if kid = "A" then .ok (.other 42)
        else .ok (.keyset ⟨2⟩)) "ECDH-ES").Unpack
      (.full ⟨none⟩ [⟨⟨"A"⟩, wrap 3 1⟩, ⟨⟨"B"⟩, wrap 3 2⟩] 5 ⟨3, [9], false⟩ 0) =
      .error .invalidKeysetHandle ∧
    (Packer.mk (fun _ => .ok (.other 42)) "ECDH-ES").Unpack
      (.compact ⟨some "A"⟩ (wrap 3 1) 5 ⟨3, [9], false⟩ 0) =
      .error .invalidKeysetHandle :=
  ⟨claim_C6_invalid_handle_fatal.1 _ ⟨none⟩ ⟨⟨"A"⟩, wrap 3 1⟩ ⟨⟨"B"⟩, wrap 3 2⟩ []
      5 ⟨3, [9], false⟩ 0 42 rfl,
    claim_C6_invalid_handle_fatal.2 _ "A" (wrap 3 1) 5 ⟨3, [9], false⟩ 0 42 rfl⟩

/-- C4: when a recipient's key is found but AEAD decryption of the
ciphertext fails (corrupted ciphertext / tag mismatch), Unpack fails
immediately with a decryption-failure error and attempts no later
recipient — the conclusion holds for every behaviour of the Key Manager
on the remaining recipients, so a later valid key is never consulted. -/
theorem claim_C4_decryption_failure_fatal (p : Packer) (ph : ProtectedHeaders)
    (e0 e1 : Recipient) (rest : List Recipient) (iv : Nat) (ct : Ciphertext)
    (tag : Nat) (kh : KeysetHandle)
    (hcor : ct.corrupted = true)
    (hkms : p.kms e0.header.KID = .ok (.keyset kh)) :
    ∃ e, p.Unpack (.full ph (e0 :: e1 :: rest) iv ct tag) =
      .error (.decryptFailed e) := by
  simp only [Packer.Unpack, Deserialize]
  cases hfind : findCEK kh (e0 :: e1 :: rest) with
  | none =>
    refine ⟨"failed to unwrap cek", ?_⟩
    rw [show (e0 :: e1 :: rest).length = (rest.length + 1) + 1 from rfl,
      List.range_succ_eq_map]
    simp [unpackLoop, getKID, hkms, JWEDecrypt.Decrypt, hfind]
  | some cek =>
    refine ⟨"AEAD decryption failure", ?_⟩
    rw [show (e0 :: e1 :: rest).length = (rest.length + 1) + 1 from rfl,
      List.range_succ_eq_map]
    simp [unpackLoop, getKID, hkms, JWEDecrypt.Decrypt, hfind, aeadDecrypt, hcor]

/-- Witness for C4: recipient A's key is present but the ciphertext is
corrupted, and recipient B's valid key is also present; Unpack fails with
the decryption-failure error. -/
theorem claim_C4_decryption_failure_fatal_witness :
    ∃ e, (Packer.mk (fun kid => if kid = "A" then .ok (.keyset ⟨1⟩)
        else .ok (.keyset ⟨2⟩)) "ECDH-ES").Unpack
      (.full ⟨none⟩ [⟨⟨"A"⟩, wrap 3 1⟩, ⟨⟨"B"⟩, wrap 3 2⟩] 5 ⟨3, [9], true⟩ 0) =
      .error (.decryptFailed e) :=
  claim_C4_decryption_failure_fatal _ ⟨none⟩ ⟨⟨"A"⟩, wrap 3 1⟩ ⟨⟨"B"⟩, wrap 3 2⟩ []
    5 ⟨3, [9], true⟩ 0 ⟨1⟩ rfl rfl

/-- C10: a Key Manager lookup error is treated as "key not found, try the
next recipient" exactly when its message equals, under case folding, the
string "cannot read data for keysetID kid: data not found"; any other
error message aborts Unpack immediately as a fatal error instead of
advancing to the next recipient. -/
theorem claim_C10_not_found_message_match :
    (∀ (p : Packer) (ph : ProtectedHeaders) (e0 e1 : Recipient)
        (rest : List Recipient) (iv : Nat) (ct : Ciphertext) (tag : Nat)
        (msg : String),
      p.kms e0.header.KID = .err msg →
      EqualFold msg (notFoundMsg e0.header.KID) = false →
      p.Unpack (.full ph (e0 :: e1 :: rest) iv ct tag) =
        .error (.kmsGetFailed msg)) ∧
    (∀ (p : Packer) (ph : ProtectedHeaders) (e0 e1 : Recipient)
        (rest : List Recipient) (iv : Nat) (ct : Ciphertext) (tag : Nat)
        (msg : String) (kh : KeysetHandle),
      p.kms e0.header.KID = .err msg →
      EqualFold msg (notFoundMsg e0.header.KID) = true →
      p.kms e1.header.KID = .ok (.keyset kh) →
      pubOfPriv kh.priv ≠ e0.encryptedKey.pubVal →
      pubOfPriv kh.priv = e1.encryptedKey.pubVal →
      ct.corrupted = false →
      ct.cek = e1.encryptedKey.cek →
      p.Unpack (.full ph (e0 :: e1 :: rest) iv ct tag) =
        .ok ⟨ct.payload, exportPubKeyBytes kh⟩) := by
  constructor
  · intro p ph e0 e1 rest iv ct tag msg hkms hfold
    simp only [Packer.Unpack, Deserialize]
    rw [show (e0 :: e1 :: rest).length = (rest.length + 1) + 1 from rfl,
      List.range_succ_eq_map]
    simp [unpackLoop, getKID, hkms, hfold]
  · intro p ph e0 e1 rest iv ct tag msg kh hkms0 hfold hkms1 hne0 hpv1 hcor hcek
    have hne0' : e1.encryptedKey.pubVal ≠ e0.encryptedKey.pubVal := hpv1 ▸ hne0
    simp only [Packer.Unpack, Deserialize]
    rw [show (e0 :: e1 :: rest).length = (rest.length + 1 + 1) from rfl,
      List.range_succ_eq_map, List.range_succ_eq_map]
    simp [unpackLoop, getKID, hkms0, hfold, hkms1, JWEDecrypt.Decrypt, findCEK,
      unwrap, hne0', hpv1, aeadDecrypt, hcor, hcek]

/-- Witness for C10: a not-found message differing only in letter case
still lets Unpack advance to the second recipient and succeed, while an
unrelated error message on the first recipient aborts Unpack fatally. -/
theorem claim_C10_not_found_message_match_witness :
    (Packer.mk (fun kid => if kid = "A" then .err "backend exploded"
        else .err (notFoundMsg kid)) "ECDH-ES").Unpack
      (.full ⟨none⟩ [⟨⟨"A"⟩, wrap 3 1⟩, ⟨⟨"B"⟩, wrap 3 2⟩] 5 ⟨3, [9], false⟩ 0) =
      .error (.kmsGetFailed "backend exploded") ∧
    (Packer.mk (fun kid => if kid = "A" then
        .err "CANNOT READ DATA FOR KEYSETID A: DATA NOT FOUND"
        else .ok (.keyset ⟨2⟩)) "ECDH-ES").Unpack
      (.full ⟨none⟩ [⟨⟨"A"⟩, wrap 3 1⟩, ⟨⟨"B"⟩, wrap 3 2⟩] 5 ⟨3, [9], false⟩ 0) =
      .ok ⟨[9], exportPubKeyBytes ⟨2⟩⟩ :=
  ⟨claim_C10_not_found_message_match.1 _ ⟨none⟩ ⟨⟨"A"⟩, wrap 3 1⟩ ⟨⟨"B"⟩, wrap 3 2⟩
      [] 5 ⟨3, [9], false⟩ 0 "backend exploded" rfl (by decide),
    claim_C10_not_found_message_match.2 _ ⟨none⟩ ⟨⟨"A"⟩, wrap 3 1⟩ ⟨⟨"B"⟩, wrap 3 2⟩
      [] 5 ⟨3, [9], false⟩ 0 "CANNOT READ DATA FOR KEYSETID A: DATA NOT FOUND" ⟨2⟩
      rfl (by decide) rfl (by decide) rfl rfl rfl⟩

/-- C3: Unpack iterates the recipients in wire order, skips a recipient
whose key is not found, and on the first recipient whose key is found and
decrypts returns immediately with the sender-verification key equal to
that matched recipient's own public key bytes: for recipients [A, B, C]
with only B's key present, the result carries B's public key, and (as
long as the keys differ) never A's or C's. -/
theorem claim_C3_ordered_resolution (p : Packer) (cek iv : Nat)
    (payload sender : List Nat) (A B C : PublicKey) (kh : KeysetHandle)
    (hA : p.kms A.kid = .err (notFoundMsg A.kid))
    (hB : p.kms B.kid = .ok (.keyset kh))
    (hmatch : pubOfPriv kh.priv = B.keyVal) :
    ∃ env, p.Pack cek iv payload sender ([A, B, C].map KeyBytes.wellFormed) =
        .ok env ∧
      p.Unpack env = .ok ⟨payload, pubKeyBytes B⟩ ∧
      (B.keyVal ≠ A.keyVal → pubKeyBytes B ≠ pubKeyBytes A) ∧
      (B.keyVal ≠ C.keyVal → pubKeyBytes B ≠ pubKeyBytes C) := by
  refine ⟨_, Pack_multi p cek iv payload sender A B [C], ?_, ?_, ?_⟩
  · have hf : findCEK kh ([A, B, C].map fun pk =>
        ⟨⟨pk.kid⟩, wrap cek pk.keyVal⟩) = some cek := by
      refine findCEK_eq kh cek _ ?_ ?_
      · intro r hr
        rcases List.mem_map.mp hr with ⟨pk, -, rfl⟩
        rfl
      · exact ⟨⟨⟨B.kid⟩, wrap cek B.keyVal⟩, by simp, hmatch⟩
    simp only [Packer.Unpack, Deserialize, List.map_cons, List.map_nil]
    rw [show ([⟨⟨A.kid⟩, wrap cek A.keyVal⟩, ⟨⟨B.kid⟩, wrap cek B.keyVal⟩,
        ⟨⟨C.kid⟩, wrap cek C.keyVal⟩] : List Recipient).length = 3 from rfl,
      show (3 : Nat) = 2 + 1 from rfl, List.range_succ_eq_map,
      List.range_succ_eq_map, List.range_succ_eq_map]
    simp only [List.map_cons, List.map_nil] at hf ⊢
    simp [unpackLoop, getKID, hA, hB, EqualFold_self, JWEDecrypt.Decrypt, hf,
      aeadDecrypt, exportPubKeyBytes, hmatch, pubKeyBytes]
  · intro hne
    simp [pubKeyBytes, hne]
  · intro hne
    simp [pubKeyBytes, hne]

/-- Witness for C3 at concrete keys A, B, C with only B's private key in
the Key Manager. -/
theorem claim_C3_ordered_resolution_witness :
    ∃ env, (Packer.mk (fun kid => if kid = "B" then .ok (.keyset ⟨2⟩)
        else .err (notFoundMsg kid)) "ECDH-ES").Pack 7 5 [9, 9] []
        ([⟨"A", 1⟩, ⟨"B", 2⟩, ⟨"C", 3⟩].map KeyBytes.wellFormed) = .ok env ∧
      (Packer.mk (fun kid => if kid = "B" then .ok (.keyset ⟨2⟩)
        else .err (notFoundMsg kid)) "ECDH-ES").Unpack env =
        .ok ⟨[9, 9], pubKeyBytes ⟨"B", 2⟩⟩ ∧
      ((⟨"B", 2⟩ : PublicKey).keyVal ≠ (⟨"A", 1⟩ : PublicKey).keyVal →
        pubKeyBytes ⟨"B", 2⟩ ≠ pubKeyBytes ⟨"A", 1⟩) ∧
      ((⟨"B", 2⟩ : PublicKey).keyVal ≠ (⟨"C", 3⟩ : PublicKey).keyVal →
        pubKeyBytes ⟨"B", 2⟩ ≠ pubKeyBytes ⟨"C", 3⟩) :=
  claim_C3_ordered_resolution _ 7 5 [9, 9] [] ⟨"A", 1⟩ ⟨"B", 2⟩ ⟨"C", 3⟩ ⟨2⟩
    rfl rfl rfl

/-- C1: round-trip — for any payload and any non-empty recipient key list,
Unpack applied to the result of Pack, with a Key Manager that reports the
keys before position j as not found and holds the private key matching
recipient j, returns the original payload bytes unchanged. -/
theorem claim_C1_roundtrip (p : Packer) (cek iv : Nat)
    (payload sender : List Nat) (keys : List PublicKey) (j : Nat)
    (pkj : PublicKey) (kh : KeysetHandle)
    (hj : keys[j]? = some pkj)
    (hbefore : ∀ i (pki : PublicKey), i < j → keys[i]? = some pki →
      p.kms pki.kid = .err (notFoundMsg pki.kid))
    (hfound : p.kms pkj.kid = .ok (.keyset kh))
    (hmatch : pubOfPriv kh.priv = pkj.keyVal) :
    ∃ env te, p.Pack cek iv payload sender (keys.map KeyBytes.wellFormed) =
        .ok env ∧ p.Unpack env = .ok te ∧ te.Message = payload := by
  have hjlt : j < keys.length := by
    by_contra hge
    rw [List.getElem?_eq_none (by omega)] at hj
    exact Option.noConfusion hj
  match keys, hj, hjlt, hbefore with
  | [pk], hj, hjlt, hbefore =>
    have hj0 : j = 0 := by simp at hjlt; omega
    subst hj0
    have hpk : pk = pkj := by simpa using hj
    subst hpk
    refine ⟨_, ⟨payload, exportPubKeyBytes kh⟩,
      Pack_single p cek iv payload sender pk, ?_, rfl⟩
    simp [Packer.Unpack, Deserialize, List.range_succ, unpackLoop, getKID,
      hfound, JWEDecrypt.Decrypt, findCEK, unwrap, wrap, hmatch, aeadDecrypt,
      exportPubKeyBytes]
  | a :: b :: t, hj, hjlt, hbefore =>
    set keys := a :: b :: t with hkeys
    refine ⟨_, ⟨payload, exportPubKeyBytes kh⟩,
      Pack_multi p cek iv payload sender a b t, ?_, rfl⟩
    have hlen : ∀ {α : Type} (f : PublicKey → α), (keys.map f).length = keys.length := by
      intro α f
      simp
    simp only [Packer.Unpack, Deserialize]
    have hrange : List.range (keys.map (fun pk =>
          (⟨⟨pk.kid⟩, wrap cek pk.keyVal⟩ : Recipient))).length =
        List.range j ++ (j :: ((List.range (keys.length - j - 1)).map
          (fun i => j + Nat.succ i))) := by
      rw [hlen, show keys.length = j + (keys.length - j) from by omega,
        List.range_add, show keys.length - j = (keys.length - j - 1) + 1 from by omega,
        List.range_succ_eq_map]
      simp
    rw [hrange]
    have hskip := unpackLoop_skip_front p
      ⟨⟨none⟩, keys.map (fun pk => ⟨⟨pk.kid⟩, wrap cek pk.keyVal⟩), iv,
        ⟨cek, payload, false⟩, 0⟩
      (List.range j)
      (j :: ((List.range (keys.length - j - 1)).map (fun i => j + Nat.succ i)))
      ?_
    · rw [hskip]
      have hcond : ¬(j = 0 ∧ keys.length = 1) := by
        rintro ⟨-, h1⟩
        rw [hkeys] at h1
        simp at h1
      have hgetj : (keys.map (fun pk =>
          (⟨⟨pk.kid⟩, wrap cek pk.keyVal⟩ : Recipient)))[j]? =
          some ⟨⟨pkj.kid⟩, wrap cek pkj.keyVal⟩ := by
        rw [List.getElem?_map, hj]
        rfl
      have hf : findCEK kh (keys.map (fun pk =>
          ⟨⟨pk.kid⟩, wrap cek pk.keyVal⟩)) = some cek := by
        refine findCEK_eq kh cek _ ?_ ?_
        · intro r hr
          rcases List.mem_map.mp hr with ⟨pk, -, rfl⟩
          rfl
        · refine ⟨⟨⟨pkj.kid⟩, wrap cek pkj.keyVal⟩, ?_, hmatch⟩
          exact List.mem_map_of_mem _ (List.getElem?_mem hj)
      simp [unpackLoop, getKID, hcond, hgetj, hfound, JWEDecrypt.Decrypt, hf,
        aeadDecrypt]
    · intro i hi
      have hilt : i < j := List.mem_range.mp hi
      have hex : ∃ pki, keys[i]? = some pki := by
        refine ⟨keys.get ⟨i, by omega⟩, ?_⟩
        exact List.getElem?_eq_getElem (by omega)
      rcases hex with ⟨pki, hpki⟩
      refine ⟨pki.kid, _, ?_, hbefore i pki hilt hpki, EqualFold_self _⟩
      have hcond : ¬(i = 0 ∧ keys.length = 1) := by
        rintro ⟨-, h1⟩
        rw [hkeys] at h1
        simp at h1
      have hgeti : (keys.map (fun pk =>
          (⟨⟨pk.kid⟩, wrap cek pk.keyVal⟩ : Recipient)))[i]? =
          some ⟨⟨pki.kid⟩, wrap cek pki.keyVal⟩ := by
        rw [List.getElem?_map, hpki]
        rfl
      simp [getKID, hcond, hgeti]

/-- Witness for C1 at five recipients with only the fourth key's private
half present (and, through the theorem's generality, the K=1 case is the
single-recipient instance proved in its first branch). -/
theorem claim_C1_roundtrip_witness :
    ∃ env te, (Packer.mk (fun kid => if kid = "D" then .ok (.keyset ⟨4⟩)
        else .err (notFoundMsg kid)) "ECDH-ES").Pack 7 5 [1, 2, 3] []
        (([⟨"A", 1⟩, ⟨"B", 2⟩, ⟨"C", 3⟩, ⟨"D", 4⟩, ⟨"E", 5⟩] :
          List PublicKey).map KeyBytes.wellFormed) = .ok env ∧
      (Packer.mk (fun kid => if kid = "D" then .ok (.keyset ⟨4⟩)
        else .err (notFoundMsg kid)) "ECDH-ES").Unpack env = .ok te ∧
      te.Message = [1, 2, 3] :=
  claim_C1_roundtrip _ 7 5 [1, 2, 3] []
    [⟨"A", 1⟩, ⟨"B", 2⟩, ⟨"C", 3⟩, ⟨"D", 4⟩, ⟨"E", 5⟩] 3 ⟨"D", 4⟩ ⟨4⟩
    rfl
    (by
      intro i pki hi hpk
      interval_cases i <;> simp_all <;> (subst hpk; decide))
    rfl rfl

/-- C9: for every Action event, the broadcast loop delivers to each
subscriber, in subscriber-list order (application subscriber first, the
Auto-Accept subscriber appended only when auto-accept is enabled), a
message reference freshly cloned once per subscriber: the delivered
references are exactly the consecutively allocated fresh ones (one per
subscriber, in list order), each holds a copy of the event's message
contents, they are pairwise distinct, and one subscriber's mutation of its
copy is never observable through another subscriber's copy. -/
theorem claim_C9_dispatcher_clone_per_subscriber (h : Heap) (msgRef : Nat)
    (autoAccept : Bool) :
    (mkSubscribers true = [Subscriber.application, Subscriber.autoAcceptResp] ∧
      mkSubscribers false = [Subscriber.application]) ∧
    (broadcastOne h msgRef autoAccept).2 =
      List.range' h.length (mkSubscribers autoAccept).length ∧
    (∀ r ∈ (broadcastOne h msgRef autoAccept).2,
      (broadcastOne h msgRef autoAccept).1.read r = h.read msgRef) ∧
    (broadcastOne h msgRef autoAccept).2.Nodup ∧
    (∀ r r', r ∈ (broadcastOne h msgRef autoAccept).2 →
      r' ∈ (broadcastOne h msgRef autoAccept).2 → r ≠ r' → ∀ v,
      (((broadcastOne h msgRef autoAccept).1).write r v).read r' =
        h.read msgRef) := by
  rcases broadcastLoop_spec (mkSubscribers autoAccept).length h msgRef with
    ⟨hrefs, hread, hold⟩
  refine ⟨⟨rfl, rfl⟩, hrefs, hread, ?_, ?_⟩
  · show (broadcastOne h msgRef autoAccept).2.Nodup
    rw [show (broadcastOne h msgRef autoAccept).2 =
      List.range' h.length (mkSubscribers autoAccept).length from hrefs]
    exact List.nodup_range' ..
  · intro r r' hr hr' hne v
    rw [Heap.read_write_ne _ r r' v hne]
    exact hread r' hr'

/-- Witness for C9 with one message in the heap and auto-accept enabled:
two deliveries in order, both carrying the original contents, and a
mutation of the first subscriber's copy leaves the second subscriber's
copy unchanged. -/
theorem claim_C9_dispatcher_clone_per_subscriber_witness :
    (broadcastOne [[5]] 0 true).2 = [1, 2] ∧
    (broadcastOne [[5]] 0 true).1.read 2 = [5] ∧
    ((broadcastOne [[5]] 0 true).1.write 1 [7]).read 2 = [5] := by
  have H := claim_C9_dispatcher_clone_per_subscriber [[5]] 0 true
  have h1 : (broadcastOne [[5]] 0 true).2 = [1, 2] := by
    rw [H.2.1]; rfl
  have hm2 : 2 ∈ (broadcastOne [[5]] 0 true).2 := by rw [h1]; simp
  have hm1 : 1 ∈ (broadcastOne [[5]] 0 true).2 := by rw [h1]; simp
  exact ⟨h1, H.2.2.1 2 hm2, H.2.2.2.2 1 2 hm1 hm2 (by decide) [7]⟩
